import Mathlib

/-!
Verification of the DynamoDB utility layer and the two lambda handlers of
this repository (`src/lambda-layer/src/dynamodb_util.py`,
`src/lambda-code/src/add-users/lambda_function.py`,
`src/lambda-code/src/get-users/lambda_function.py`).

The Python code is embedded shallowly: dictionaries become association
lists (insertion ordered, like Python dicts), fallible code returns
`Except`, and the remote DynamoDB transport is an explicit function
parameter.  The attribute codec used by `serialize_item` /
`deserialize_item` is boto3's `TypeSerializer` / `TypeDeserializer`,
which is library code outside this repository; its value mapping is
modelled from the specification (§4.1 of the design document).
-/

namespace DynamoUtil

/-- A plain application-level value: the native untyped value space of the
codec (string, number, boolean, null, ordered sequence, nested mapping,
byte sequence).  Embeds the values `serialize_item` accepts. -/
inductive PlainValue : Type where
  | str : String → PlainValue
  | num : Int → PlainValue
  | bool : Bool → PlainValue
  | null : PlainValue
  | list : List PlainValue → PlainValue
  | map : List (String × PlainValue) → PlainValue
  | binary : List Nat → PlainValue

/-- A plain item: attribute name to plain value, as a Python dict. -/
abbrev PlainItem := List (String × PlainValue)

mutual
/-- One wire-format attribute value: a Python dict from type tags to
payloads.  A well-formed value holds exactly one tag; the list form
makes the malformed cases (zero tags, several tags) representable. -/
inductive WireValue : Type where
  | mk : List WireField → WireValue

/-- One tagged payload inside a `WireValue`, following the wire tags of
the remote store (S, N, BOOL, NULL, L, M, B). -/
inductive WireField : Type where
  | S : String → WireField
  | N : Int → WireField
  | BOOL : Bool → WireField
  | NULL : Bool → WireField
  | L : List WireValue → WireField
  | M : List (String × WireValue) → WireField
  | B : List Nat → WireField
end

/-- A wire item: attribute name to wire value, as transmitted. -/
abbrev WireItem := List (String × WireValue)

/-- The codec failure signal (`CodecError` in the specification; boto3
raises `TypeError` here). -/
structure CodecError : Type where
  message : String
deriving DecidableEq

mutual
/-- Modelled from the spec: `TypeSerializer.serialize`, the codec core of
`serialize_item`.  The serializer is boto3 library code, not part of the
repository; §4.1 of the spec defines the mapping embedded here: each
native kind becomes the single matching tag, recursing into sequences and
mappings. -/
def serializeValue : PlainValue → WireValue
  | .str s => .mk [.S s]
  | .num n => .mk [.N n]
  | .bool b => .mk [.BOOL b]
  | .null => .mk [.NULL true]
  | .list xs => .mk [.L (serializeListVals xs)]
  | .map m => .mk [.M (serializeMapVals m)]
  | .binary bs => .mk [.B bs]

/-- Serialization of every element of an ordered sequence, in order. -/
def serializeListVals : List PlainValue → List WireValue
  | [] => []
  | x :: xs => serializeValue x :: serializeListVals xs

/-- Serialization of every entry of a nested mapping, in order. -/
def serializeMapVals : List (String × PlainValue) → List (String × WireValue)
  | [] => []
  | (k, v) :: rest => (k, serializeValue v) :: serializeMapVals rest
end

mutual
/-- Modelled from the spec: `TypeDeserializer.deserialize`, the codec core
of `deserialize_item` (boto3 library code, not in the repository).  The
spec requires a `WireValue` with zero or more than one active tag to be
rejected with `CodecError`, never coerced; a single recognized tag is
mapped back to the native value. -/
def deserializeValue : WireValue → Except CodecError PlainValue
  | .mk [] => .error ⟨"Value must be a nonempty dictionary with exactly one tag"⟩
  | .mk [f] => deserializeField f
  | .mk (_ :: _ :: _) =>
      .error ⟨"Value must be a nonempty dictionary with exactly one tag"⟩

/-- Tag-driven mapping of a single wire payload back to a plain value. -/
def deserializeField : WireField → Except CodecError PlainValue
  | .S s => .ok (.str s)
  | .N n => .ok (.num n)
  | .BOOL b => .ok (.bool b)
  | .NULL _ => .ok .null
  | .L ws =>
      match deserializeListVals ws with
      | .ok vs => .ok (.list vs)
      | .error e => .error e
  | .M m =>
      match deserializeMapVals m with
      | .ok vs => .ok (.map vs)
      | .error e => .error e
  | .B bs => .ok (.binary bs)

/-- Deserialization of every element of a wire list, in order; the first
failure propagates. -/
def deserializeListVals : List WireValue → Except CodecError (List PlainValue)
  | [] => .ok []
  | w :: ws =>
      match deserializeValue w with
      | .error e => .error e
      | .ok v =>
        match deserializeListVals ws with
        | .error e => .error e
        | .ok vs => .ok (v :: vs)

/-- Deserialization of every entry of a wire map, in order; the first
failure propagates. -/
def deserializeMapVals :
    List (String × WireValue) → Except CodecError (List (String × PlainValue))
  | [] => .ok []
  | (k, w) :: rest =>
      match deserializeValue w with
      | .error e => .error e
      | .ok v =>
        match deserializeMapVals rest with
        | .error e => .error e
        | .ok vs => .ok ((k, v) :: vs)
end

/-- `serialize_item` from `dynamodb_util.py`: serializes every attribute
value of the item, keeping names and order (the Python dict
comprehension `{k: serializer.serialize(v) for k, v in item.items()}`). -/
def serialize_item (item : PlainItem) : WireItem :=
  item.map (fun kv => (kv.1, serializeValue kv.2))

/-- `deserialize_item` from `dynamodb_util.py`: deserializes every
attribute value (`{k: deserializer.deserialize(v) for k, v in
item.items()}`); a codec failure on any attribute propagates. -/
def deserialize_item : WireItem → Except CodecError PlainItem
  | [] => .ok []
  | (k, w) :: rest =>
      match deserializeValue w with
      | .error e => .error e
      | .ok v =>
        match deserialize_item rest with
        | .error e => .error e
        | .ok vs => .ok ((k, v) :: vs)

mutual
/-- Deserializing the serialization of one plain value returns the value. -/
theorem roundtripValue : (v : PlainValue) →
    deserializeValue (serializeValue v) = Except.ok v
  | .str _ => rfl
  | .num _ => rfl
  | .bool _ => rfl
  | .null => rfl
  | .list xs => by
      simp [serializeValue, deserializeValue, deserializeField, roundtripListVals xs]
  | .map m => by
      simp [serializeValue, deserializeValue, deserializeField, roundtripMapVals m]
  | .binary _ => rfl

/-- Element-wise round trip over ordered sequences. -/
theorem roundtripListVals : (xs : List PlainValue) →
    deserializeListVals (serializeListVals xs) = Except.ok xs
  | [] => rfl
  | x :: xs => by
      simp [serializeListVals, deserializeListVals, roundtripValue x,
        roundtripListVals xs]

/-- Entry-wise round trip over nested mappings. -/
theorem roundtripMapVals : (m : List (String × PlainValue)) →
    deserializeMapVals (serializeMapVals m) = Except.ok m
  | [] => rfl
  | (k, v) :: rest => by
      simp [serializeMapVals, deserializeMapVals, roundtripValue v,
        roundtripMapVals rest]
end

/-- C1: For every PlainItem x whose attribute values lie in the codec's
value space (the `PlainValue` type: strings, numbers, booleans, null,
ordered sequences, nested mappings, byte sequences), deserializing the
result of serializing x returns x:
`deserialize_item (serialize_item x) = .ok x`. -/
theorem deserialize_serialize_roundtrip (x : PlainItem) :
    deserialize_item (serialize_item x) = Except.ok x := by
  induction x with
  | nil => rfl
  | cons kv rest ih =>
      obtain ⟨k, v⟩ := kv
      have ih' : deserialize_item
          (rest.map (fun kv => (kv.1, serializeValue kv.2))) = Except.ok rest := by
        simpa [serialize_item] using ih
      simp [serialize_item, deserialize_item, roundtripValue v, ih']

/-- If deserializing a wire item succeeds, every attribute value in it
deserializes successfully. -/
theorem deserialize_item_ok_forall {w : WireItem} {r : PlainItem}
    (h : deserialize_item w = Except.ok r) :
    ∀ kv ∈ w, ∃ pv, deserializeValue kv.2 = Except.ok pv := by
  induction w generalizing r with
  | nil => intro kv hkv; cases hkv
  | cons head tail ih =>
      obtain ⟨k, wv⟩ := head
      intro kv hkv
      simp only [deserialize_item] at h
      cases hval : deserializeValue wv with
      | error e => rw [hval] at h; cases h
      | ok v =>
          rw [hval] at h
          cases hrest : deserialize_item tail with
          | error e => rw [hrest] at h; cases h
          | ok vs =>
              cases hkv with
              | head => exact ⟨v, hval⟩
              | tail _ hmem => exact ih hrest kv hmem

/-- A wire value with zero or several active tags never deserializes. -/
theorem deserializeValue_malformed (fs : List WireField)
    (hlen : fs.length ≠ 1) :
    ∃ e, deserializeValue (WireValue.mk fs) = Except.error e := by
  match fs with
  | [] => exact ⟨_, rfl⟩
  | [f] => exact absurd rfl hlen
  | _ :: _ :: _ => exact ⟨_, rfl⟩

/-- C2: For every WireItem containing an attribute whose WireValue has
zero active tags or more than one active tag, `deserialize_item` fails
with a `CodecError`; it never returns a (defaulted or coerced) item. -/
theorem deserialize_item_rejects_malformed (w : WireItem) (k : String)
    (fs : List WireField) (hmem : (k, WireValue.mk fs) ∈ w)
    (hlen : fs.length ≠ 1) :
    ∃ e : CodecError, deserialize_item w = Except.error e := by
  cases h : deserialize_item w with
  | error e => exact ⟨e, rfl⟩
  | ok r =>
      obtain ⟨pv, hpv⟩ := deserialize_item_ok_forall h (k, WireValue.mk fs) hmem
      obtain ⟨e, he⟩ := deserializeValue_malformed fs hlen
      rw [hpv] at he
      cases he

/-- Witness for C2: the singleton item whose one attribute has an empty
tag set is rejected. -/
theorem deserialize_item_rejects_malformed_witness :
    ∃ e : CodecError,
      deserialize_item [("a", WireValue.mk [])] = Except.error e :=
  deserialize_item_rejects_malformed [("a", WireValue.mk [])] "a" []
    (List.mem_singleton.mpr rfl) (by simp)

/-- A transport failure (`botocore.exceptions.ClientError`); `message`
embeds the remote error detail `e.response["Error"]["Message"]`. -/
structure ClientError : Type where
  message : String
deriving DecidableEq

/-- The failure modes a facade call can surface to its caller: a
re-raised transport `ClientError`, a propagated `CodecError`, a Python
`KeyError` from a missing dictionary member, or a Python `NameError`
from an unbound local variable. -/
inductive PyError : Type where
  | client : ClientError → PyError
  | codec : CodecError → PyError
  | keyError : String → PyError
  | nameError : String → PyError
deriving DecidableEq

/-- `handle_client_error` from `dynamodb_util.py`: runs the wrapped
function (inside a tracing span when a tracer is configured); on a
`ClientError` it formats `"DynamoDB Error in {func.__name__}:
{e.response[Error][Message]}"`, logs it at error severity, forwards the
exception to the tracer when one is configured, and re-raises the same
exception.  The result triple is (outcome, messages logged at error
severity, exceptions captured by the tracer). -/
def handle_client_error {α : Type} (funcName : String) (tracer : Bool)
    (func : Unit → Except ClientError α) :
    Except ClientError α × List String × List ClientError :=
  match func () with
  | .ok v => (.ok v, [], [])
  | .error e =>
      (.error e,
       ["DynamoDB Error in " ++ funcName ++ ": " ++ e.message],
       if tracer then [e] else [])

/-- C4: for every wrapped operation and every transport failure raised
during it, `handle_client_error` logs one diagnostic combining the
operation name and the remote error detail, forwards the exception to
the tracer exactly when one is configured, and re-raises the very same
exception — never a swallowed, translated or fabricated outcome, and the
wrapped function is invoked exactly once (the definition consults `func`
a single time, so no retry exists). -/
theorem handle_client_error_reraises {α : Type} (funcName : String)
    (tracer : Bool) (func : Unit → Except ClientError α) (e : ClientError)
    (hfail : func () = Except.error e) :
    handle_client_error funcName tracer func =
      (Except.error e,
       ["DynamoDB Error in " ++ funcName ++ ": " ++ e.message],
       if tracer then [e] else []) := by
  simp [handle_client_error, hfail]

/-- Witness for C4: a concrete failing call through the wrapper with a
tracer configured. -/
theorem handle_client_error_reraises_witness :
    handle_client_error "get_item" true
        (fun _ => (Except.error ⟨"AccessDenied"⟩ : Except ClientError Nat)) =
      (Except.error ⟨"AccessDenied"⟩,
       ["DynamoDB Error in " ++ "get_item" ++ ": " ++ "AccessDenied"],
       if true then [⟨"AccessDenied"⟩] else []) :=
  handle_client_error_reraises "get_item" true
    (fun _ => Except.error ⟨"AccessDenied"⟩) ⟨"AccessDenied"⟩ rfl

/-- The metadata block of every transport response. -/
structure ResponseMetadata : Type where
  HTTPStatusCode : Nat
deriving DecidableEq

/-- A transport response to `get_item`: the optional `Item` member (the
key is absent from the response when no item matched) plus metadata. -/
structure GetItemResponse : Type where
  Item : Option WireItem
  ResponseMetadata : ResponseMetadata

/-- `get_item` from `dynamodb_util.py`: calls the transport's `get_item`
with the table name and key, then returns
`deserialize_item(response["Item"])` when the response carries an
`Item` member and the empty dictionary `{}` otherwise; a transport
`ClientError` is re-raised by the wrapper and a codec failure
propagates. -/
def get_item
    (fetch : String → WireItem → Except ClientError GetItemResponse)
    (table_name : String) (key : WireItem) : Except PyError PlainItem :=
  match fetch table_name key with
  | .error e => .error (.client e)
  | .ok resp =>
      match resp.Item with
      | some wire =>
          match deserialize_item wire with
          | .error ce => .error (.codec ce)
          | .ok item => .ok item
      | none => .ok []

/-- C3: for every key whose fetch response contains no item, `get_item`
returns the empty mapping — not an error, not null, and not a response
envelope. -/
theorem get_item_absent_returns_empty
    (fetch : String → WireItem → Except ClientError GetItemResponse)
    (table_name : String) (key : WireItem) (resp : GetItemResponse)
    (hfetch : fetch table_name key = Except.ok resp)
    (hnone : resp.Item = none) :
    get_item fetch table_name key = Except.ok ([] : PlainItem) := by
  simp [get_item, hfetch, hnone]

/-- Witness for C3: a stub transport whose response has no `Item`
member. -/
theorem get_item_absent_returns_empty_witness :
    get_item (fun _ _ => Except.ok ⟨none, ⟨200⟩⟩) "Users"
        [("_id", WireValue.mk [WireField.S "u1"])] =
      Except.ok ([] : PlainItem) :=
  get_item_absent_returns_empty (fun _ _ => Except.ok ⟨none, ⟨200⟩⟩)
    "Users" [("_id", WireValue.mk [WireField.S "u1"])] ⟨none, ⟨200⟩⟩ rfl rfl

end DynamoUtil

namespace GetUsers

open DynamoUtil

/-- The body of the get-users HTTP response: either the fetched item or
the fallback message (Python `response or "No matching item found"`,
where an empty dict is falsy). -/
inductive Body : Type where
  | item : PlainItem → Body
  | message : String → Body

/-- The HTTP-like envelope returned by the get-users route handler. -/
structure HandlerResponse : Type where
  statusCode : Nat
  isBase64Encoded : Bool
  body : Body

/-- `get_users` from `get-users/lambda_function.py`: fetches the item
with key `{"_id": {"S": user_id}}`, hardcodes `status_code = 200` (the
read of the response metadata is commented out in the source), applies
the dead `if status_code != 200` rewrite, and returns the envelope whose
body carries the item when one was found and the fallback message
otherwise.  A transport or codec failure propagates out of the route
handler. -/
def get_users
    (fetch : String → WireItem → Except ClientError GetItemResponse)
    (table_name : String) (user_id : String) :
    Except PyError HandlerResponse :=
  match get_item fetch table_name [("_id", WireValue.mk [WireField.S user_id])] with
  | .error e => .error e
  | .ok response =>
      let status_code : Nat := 200
      let status_code := if status_code ≠ 200 then 400 else status_code
      .ok { statusCode := status_code,
            isBase64Encoded := false,
            body := if response.isEmpty then Body.message "No matching item found"
                    else Body.item response }

/-- C9: whenever the underlying fetch completes without raising, the
get-users handler returns statusCode 200 — the code is fixed
independently of the transport response's metadata, so the 400 branch is
unreachable. -/
theorem get_users_status_always_200
    (fetch : String → WireItem → Except ClientError GetItemResponse)
    (table_name : String) (user_id : String) (r : HandlerResponse)
    (hok : get_users fetch table_name user_id = Except.ok r) :
    r.statusCode = 200 := by
  unfold get_users at hok
  cases h : get_item fetch table_name
      [("_id", WireValue.mk [WireField.S user_id])] with
  | error e => rw [h] at hok; cases hok
  | ok response =>
      rw [h] at hok
      simp at hok
      rw [← hok]

/-- Witness for C9: a stub transport with a 500 status in the response
metadata still yields a 200 envelope. -/
theorem get_users_status_always_200_witness :
    ∃ r : HandlerResponse,
      get_users (fun _ _ => Except.ok ⟨none, ⟨500⟩⟩) "Users" "u1" =
          Except.ok r ∧ r.statusCode = 200 := by
  refine ⟨⟨200, false, Body.message "No matching item found"⟩, rfl, ?_⟩
  exact get_users_status_always_200 (fun _ _ => Except.ok ⟨none, ⟨500⟩⟩)
    "Users" "u1" ⟨200, false, Body.message "No matching item found"⟩ rfl

end GetUsers

namespace AddUsers

open DynamoUtil

/-- Fuel-indexed chunker: with fuel at least the list length (and a
positive batch size) it produces the slices `items_list[i : i + n]` for
`i = 0, n, 2n, ...`, exactly as the Python generator does. -/
def chunksAux {α : Type} : Nat → List α → Nat → List (List α)
  | 0, _, _ => []
  | _ + 1, [], _ => []
  | fuel + 1, a :: as, n => (a :: as).take n :: chunksAux fuel ((a :: as).drop n) n

/-- `batch_list_dicts` from `add-users/lambda_function.py`: splits a
list into consecutive slices of `batch_size` (`for i in range(0,
len(items_list), batch_size): yield items_list[i : i + batch_size]`);
the list's length is enough fuel for any positive batch size. -/
def batch_list_dicts {α : Type} (items_list : List α) (batch_size : Nat) :
    List (List α) :=
  chunksAux items_list.length items_list batch_size

/-- The chunker yields nothing on an empty list, whatever the fuel. -/
theorem chunksAux_nil {α : Type} (fuel n : Nat) :
    chunksAux (α := α) fuel [] n = [] := by
  cases fuel <;> rfl

/-- Any fuel at least the list length gives the same chunks. -/
theorem chunksAux_fuel {α : Type} (n : Nat) (hn : 0 < n) :
    ∀ fuel fuel' (l : List α), l.length ≤ fuel → l.length ≤ fuel' →
      chunksAux fuel l n = chunksAux fuel' l n := by
  intro fuel
  induction fuel with
  | zero =>
      intro fuel' l hl _
      have : l = [] := List.eq_nil_of_length_eq_zero (Nat.le_zero.mp hl)
      subst this
      rw [chunksAux_nil, chunksAux_nil]
  | succ fuel ih =>
      intro fuel' l hl hl'
      cases l with
      | nil => rw [chunksAux_nil, chunksAux_nil]
      | cons a as =>
          cases fuel' with
          | zero => simp at hl'
          | succ fuel' =>
              simp only [chunksAux]
              congr 1
              apply ih
              · simp only [List.length_drop, List.length_cons]
                simp only [List.length_cons] at hl
                omega
              · simp only [List.length_drop, List.length_cons]
                simp only [List.length_cons] at hl'
                omega

/-- Splitting a non-empty list chunks the first `n` elements and recurses
on the rest. -/
theorem batch_list_dicts_cons {α : Type} (n : Nat) (hn : 0 < n)
    (l : List α) (hl : l ≠ []) :
    batch_list_dicts l n = l.take n :: batch_list_dicts (l.drop n) n := by
  cases l with
  | nil => exact absurd rfl hl
  | cons a as =>
      simp only [batch_list_dicts, List.length_cons, chunksAux]
      congr 1
      apply chunksAux_fuel n hn
      · simp only [List.length_drop, List.length_cons]; omega
      · exact Nat.le_refl _

/-- Concatenating the chunks restores the list. -/
theorem chunksAux_flatten {α : Type} (n : Nat) (hn : 0 < n) :
    ∀ fuel (l : List α), l.length ≤ fuel →
      (chunksAux fuel l n).flatten = l := by
  intro fuel
  induction fuel with
  | zero =>
      intro l hl
      have : l = [] := List.eq_nil_of_length_eq_zero (Nat.le_zero.mp hl)
      subst this; rfl
  | succ fuel ih =>
      intro l hl
      cases l with
      | nil => rfl
      | cons a as =>
          simp only [chunksAux, List.flatten_cons]
          rw [ih]
          · exact List.take_append_drop n (a :: as)
          · simp only [List.length_drop, List.length_cons]
            simp only [List.length_cons] at hl
            omega

/-- Every chunk is non-empty and no longer than the batch size. -/
theorem chunksAux_mem {α : Type} (n : Nat) (hn : 0 < n) :
    ∀ fuel (l : List α), l.length ≤ fuel →
      ∀ c ∈ chunksAux fuel l n, c ≠ [] ∧ c.length ≤ n := by
  intro fuel
  induction fuel with
  | zero =>
      intro l hl c hc
      have : l = [] := List.eq_nil_of_length_eq_zero (Nat.le_zero.mp hl)
      subst this; cases hc
  | succ fuel ih =>
      intro l hl c hc
      cases l with
      | nil => cases hc
      | cons a as =>
          simp only [chunksAux] at hc
          cases hc with
          | head =>
              constructor
              · simp [List.take_eq_nil_iff]
                omega
              · simp only [List.length_take]
                omega
          | tail _ hmem =>
              apply ih _ _ _ hmem
              simp only [List.length_drop, List.length_cons]
              simp only [List.length_cons] at hl
              omega

/-- Every chunk other than the last has length exactly the batch size. -/
theorem chunksAux_getD {α : Type} (n : Nat) (hn : 0 < n) :
    ∀ fuel (l : List α), l.length ≤ fuel →
      ∀ i, i + 1 < (chunksAux fuel l n).length →
        ((chunksAux fuel l n).getD i []).length = n := by
  intro fuel
  induction fuel with
  | zero =>
      intro l hl i hi
      have : l = [] := List.eq_nil_of_length_eq_zero (Nat.le_zero.mp hl)
      subst this; simp [chunksAux] at hi
  | succ fuel ih =>
      intro l hl i hi
      cases l with
      | nil => simp [chunksAux] at hi
      | cons a as =>
          simp only [chunksAux, List.length_cons] at hi
          cases i with
          | zero =>
              have hrest : chunksAux fuel ((a :: as).drop n) n ≠ [] := by
                intro hempty
                rw [hempty] at hi
                simp at hi
              have hdrop : (a :: as).drop n ≠ [] := by
                intro hempty
                rw [hempty, chunksAux_nil] at hrest
                exact hrest rfl
              have hlen : n < (a :: as).length := by
                by_contra hle
                exact hdrop (List.drop_eq_nil_of_le (Nat.le_of_not_lt hle))
              simp only [chunksAux, List.getD_cons_zero, List.length_take]
              omega
          | succ i =>
              simp only [chunksAux, List.getD_cons_succ]
              exact ih ((a :: as).drop n) (by
                simp only [List.length_drop, List.length_cons]
                simp only [List.length_cons] at hl
                omega) i (by omega)

/-- C10: for every list and every positive batch size, concatenating the
chunks of `batch_list_dicts` in order reproduces the input exactly,
every chunk is non-empty with length at most the batch size, and every
chunk except possibly the last has length exactly the batch size. -/
theorem batch_list_dicts_spec {α : Type} (l : List α) (n : Nat)
    (hn : 0 < n) :
    (batch_list_dicts l n).flatten = l ∧
      (∀ c ∈ batch_list_dicts l n, c ≠ [] ∧ c.length ≤ n) ∧
      (∀ i, i + 1 < (batch_list_dicts l n).length →
        ((batch_list_dicts l n).getD i []).length = n) :=
  ⟨chunksAux_flatten n hn l.length l (Nat.le_refl _),
   chunksAux_mem n hn l.length l (Nat.le_refl _),
   chunksAux_getD n hn l.length l (Nat.le_refl _)⟩

/-- Witness for C10: chunking five elements by two. -/
theorem batch_list_dicts_spec_witness :
    (batch_list_dicts [0, 1, 2, 3, 4] 2).flatten = [0, 1, 2, 3, 4] ∧
      (∀ c ∈ batch_list_dicts [0, 1, 2, 3, 4] 2, c ≠ [] ∧ c.length ≤ 2) ∧
      (∀ i, i + 1 < (batch_list_dicts [0, 1, 2, 3, 4] 2).length →
        ((batch_list_dicts [0, 1, 2, 3, 4] 2).getD i []).length = 2) :=
  batch_list_dicts_spec [0, 1, 2, 3, 4] 2 (by decide)

/-- A transport response to `batch_write_item` (only the metadata the
handler inspects). -/
structure BatchWriteResponse : Type where
  ResponseMetadata : ResponseMetadata
deriving DecidableEq

/-- `batch_write_item` from `dynamodb_util.py`: serializes every item of
the chunk and submits one `PutRequest` per item to the transport's
`batch_write_item` for the table. -/
def batch_write_item
    (transport : String → List WireItem → Except ClientError BatchWriteResponse)
    (table_name : String) (items : List PlainItem) :
    Except ClientError BatchWriteResponse :=
  transport table_name (items.map serialize_item)

/-- The `for users_batch in users_batches` loop of the handler's
`batchWriteItem` branch: submits chunks sequentially; a non-200 response
sets the status to 400 and breaks, a transport error propagates, a 200
response appends the chunk to the written accumulator.  The state is
(accumulated `users`, last `status_code`, `none` while still unbound);
the second component of the result records the chunks actually submitted
to the transport. -/
def batch_write_loop
    (transport : String → List WireItem → Except ClientError BatchWriteResponse)
    (table_name : String) :
    List (List PlainItem) → List PlainItem → Option Nat →
    Except ClientError (Option Nat × List PlainItem) × List (List PlainItem)
  | [], users, status_code => (.ok (status_code, users), [])
  | users_batch :: rest, users, _ =>
      match batch_write_item transport table_name users_batch with
      | .error e => (.error e, [users_batch])
      | .ok response =>
          if response.ResponseMetadata.HTTPStatusCode ≠ 200 then
            (.ok (some 400, users), [users_batch])
          else
            let r := batch_write_loop transport table_name rest
              (users ++ users_batch) (some response.ResponseMetadata.HTTPStatusCode)
            (r.1, users_batch :: r.2)

/-- The envelope returned by the `batchWriteItem` branch. -/
structure BatchWriteResult : Type where
  statusCode : Nat
  isBase64Encoded : Bool
  userCount : Nat
  usersWritten : List PlainItem

/-- The `batchWriteItem` branch of `lambda_handler` in
`add-users/lambda_function.py`: splits the generated users into chunks
of 25 with `batch_list_dicts`, clears the accumulator, runs the
submission loop, and returns the envelope carrying the requested count
and the users actually written.  An unhandled transport error
propagates; an empty chunk list leaves `status_code` unbound (a
`NameError`).  The second component records the chunks submitted. -/
def batch_write_branch
    (transport : String → List WireItem → Except ClientError BatchWriteResponse)
    (table_name : String) (users : List PlainItem) :
    Except PyError BatchWriteResult × List (List PlainItem) :=
  let users_batches := batch_list_dicts users 25
  let r := batch_write_loop transport table_name users_batches [] none
  (match r.1 with
   | .error e => .error (.client e)
   | .ok (none, _) => .error (.nameError "status_code")
   | .ok (some status_code, written) =>
       .ok ⟨status_code, false, users.length, written⟩,
   r.2)

/-- C5: a batch insert of 30 items is partitioned into two chunks of
sizes 25 and 5; when the first chunk's transport call fails (the
response metadata reports a non-200 status), the second chunk is never
submitted and the returned result has statusCode 400 and an empty
`usersWritten` list. -/
theorem batch_write_30_first_chunk_failure
    (transport : String → List WireItem → Except ClientError BatchWriteResponse)
    (table_name : String) (users : List PlainItem)
    (response : BatchWriteResponse)
    (hlen : users.length = 30)
    (hresp : batch_write_item transport table_name (users.take 25) =
      Except.ok response)
    (hfail : response.ResponseMetadata.HTTPStatusCode ≠ 200) :
    batch_list_dicts users 25 = [users.take 25, users.drop 25] ∧
      (users.take 25).length = 25 ∧ (users.drop 25).length = 5 ∧
      batch_write_branch transport table_name users =
        (Except.ok ⟨400, false, 30, []⟩, [users.take 25]) := by
  have husers : users ≠ [] := by
    intro h; rw [h] at hlen; cases hlen
  have hchunks : batch_list_dicts users 25 =
      [users.take 25, users.drop 25] := by
    rw [batch_list_dicts_cons 25 (by decide) users husers]
    congr 1
    have hdlen : (users.drop 25).length = 5 := by
      simp [List.length_drop, hlen]
    have hd : users.drop 25 ≠ [] := by
      intro h; rw [h] at hdlen; cases hdlen
    rw [batch_list_dicts_cons 25 (by decide) (users.drop 25) hd]
    have htake : (users.drop 25).take 25 = users.drop 25 :=
      List.take_of_length_le (by rw [hdlen]; decide)
    have hdrop : (users.drop 25).drop 25 = [] :=
      List.drop_eq_nil_of_le (by rw [hdlen]; decide)
    rw [htake, hdrop]
    rfl
  refine ⟨hchunks, by simp [List.length_take, hlen], by simp [hlen], ?_⟩
  simp only [batch_write_branch, hchunks, batch_write_loop, hresp,
    if_pos hfail, hlen]

/-- Witness for C5: thirty empty records against a stub transport whose
first response reports HTTP status 500. -/
theorem batch_write_30_first_chunk_failure_witness :
    batch_list_dicts (List.replicate 30 ([] : PlainItem)) 25 =
        [(List.replicate 30 ([] : PlainItem)).take 25,
         (List.replicate 30 ([] : PlainItem)).drop 25] ∧
      ((List.replicate 30 ([] : PlainItem)).take 25).length = 25 ∧
      ((List.replicate 30 ([] : PlainItem)).drop 25).length = 5 ∧
      batch_write_branch (fun _ _ => Except.ok ⟨⟨500⟩⟩) "Users"
          (List.replicate 30 ([] : PlainItem)) =
        (Except.ok ⟨400, false, 30, []⟩,
         [(List.replicate 30 ([] : PlainItem)).take 25]) :=
  batch_write_30_first_chunk_failure (fun _ _ => Except.ok ⟨⟨500⟩⟩) "Users"
    (List.replicate 30 ([] : PlainItem)) ⟨⟨500⟩⟩ (by simp) rfl (by decide)

end AddUsers

namespace DynamoUtil

/-- The `Table` block of a `describe_table` response; `ItemCount` is the
collection's last-reported item count maintained by the store engine. -/
structure TableDescription : Type where
  ItemCount : Int
deriving DecidableEq

/-- A transport response to `describe_table`. -/
structure DescribeTableResponse : Type where
  Table : TableDescription
  ResponseMetadata : ResponseMetadata
deriving DecidableEq

/-- `get_item_count` from `dynamodb_util.py`: calls the transport's
`describe_table` for the table and returns the response — the whole
description envelope, although its docstring promises the `int` count of
items. -/
def get_item_count
    (describe_table : String → Except ClientError DescribeTableResponse)
    (table_name : String) : Except ClientError DescribeTableResponse :=
  describe_table table_name

/-- A transport response to `query`: the matched wire items (in the
store's order) plus metadata. -/
structure QueryResponse : Type where
  Items : List WireItem
  ResponseMetadata : ResponseMetadata

/-- The value `query_items` returns: the transport response updated with
an `items` member holding the deserialized items (the Python
`response.update({"items": [...]})` followed by `return response`). -/
structure QueryResult : Type where
  Items : List WireItem
  ResponseMetadata : ResponseMetadata
  items : List PlainItem

/-- Deserialization of every wire item of a response, in order; the
first codec failure propagates (the Python list comprehension
`[deserialize_item(item) for item in response.get("Items", [])]`). -/
def deserialize_items : List WireItem → Except CodecError (List PlainItem)
  | [] => .ok []
  | w :: ws =>
      match deserialize_item w with
      | .error e => .error e
      | .ok item =>
        match deserialize_items ws with
        | .error e => .error e
        | .ok rest => .ok (item :: rest)

/-- `query_items` from `dynamodb_util.py`: runs the transport query with
the key-condition expression and the named-placeholder maps, deserializes
every returned wire item, stores the list under the `items` member of
the response, and returns the response. -/
def query_items
    (query : String → String → List (String × String) →
      List (String × WireValue) → Except ClientError QueryResponse)
    (table_name : String) (key_condition_expression : String)
    (expression_attribute_names : List (String × String))
    (expression_attribute_values : List (String × WireValue)) :
    Except PyError QueryResult :=
  match query table_name key_condition_expression
      expression_attribute_names expression_attribute_values with
  | .error e => .error (.client e)
  | .ok response =>
      match deserialize_items response.Items with
      | .error ce => .error (.codec ce)
      | .ok pis => .ok ⟨response.Items, response.ResponseMetadata, pis⟩

/-- A stub query transport with no matching items and HTTP status 200. -/
def queryStubA : String → String → List (String × String) →
    List (String × WireValue) → Except ClientError QueryResponse :=
  fun _ _ _ _ => Except.ok ⟨[], ⟨200⟩⟩

/-- A stub query transport with no matching items and HTTP status 500 in
the response metadata. -/
def queryStubB : String → String → List (String × String) →
    List (String × WireValue) → Except ClientError QueryResponse :=
  fun _ _ _ _ => Except.ok ⟨[], ⟨500⟩⟩

/-- C7 counterexample: the result of `query_items` is not the list of
deserialized items — two transports returning the same wire items yield
different results, because the function returns the whole response
envelope (metadata included) rather than the ordered sequence alone. -/
theorem query_items_not_item_list :
    ∃ rA rB : QueryResult,
      query_items queryStubA "Users" "#id = :_id" [] [] = Except.ok rA ∧
      query_items queryStubB "Users" "#id = :_id" [] [] = Except.ok rB ∧
      rA.Items = rB.Items ∧ rA.items = rB.items ∧ rA ≠ rB := by
  refine ⟨⟨[], ⟨200⟩, []⟩, ⟨[], ⟨500⟩, []⟩, rfl, rfl, rfl, rfl, ?_⟩
  intro h
  exact absurd
    (congrArg (fun r => r.ResponseMetadata.HTTPStatusCode) h) (by decide)

/-- If deserializing a list of wire items succeeds, the output has one
plain item per wire item, in the same order. -/
theorem deserialize_items_pointwise :
    ∀ {ws : List WireItem} {ps : List PlainItem},
      deserialize_items ws = Except.ok ps →
      ps.length = ws.length ∧
        ∀ i, i < ws.length →
          deserialize_item (ws.getD i []) = Except.ok (ps.getD i []) := by
  intro ws
  induction ws with
  | nil =>
      intro ps h
      simp only [deserialize_items] at h
      cases h
      exact ⟨rfl, fun i hi => by cases hi⟩
  | cons w ws ih =>
      intro ps h
      simp only [deserialize_items] at h
      cases hw : deserialize_item w with
      | error e => rw [hw] at h; cases h
      | ok item =>
          rw [hw] at h
          cases hws : deserialize_items ws with
          | error e => rw [hws] at h; cases h
          | ok rest =>
              rw [hws] at h
              cases h
              obtain ⟨hlen, hpt⟩ := ih hws
              refine ⟨by simp [hlen], ?_⟩
              intro i hi
              cases i with
              | zero => simpa using hw
              | succ i =>
                  simp only [List.getD_cons_succ]
                  exact hpt i (by simpa using hi)

/-- C7 (amended): `query_items` returns the transport response envelope
augmented with an `items` member; that member is the list of
deserialized items, one per wire item and in the same order. -/
theorem query_items_envelope
    (query : String → String → List (String × String) →
      List (String × WireValue) → Except ClientError QueryResponse)
    (table_name key_condition_expression : String)
    (expression_attribute_names : List (String × String))
    (expression_attribute_values : List (String × WireValue))
    (response : QueryResponse) (pis : List PlainItem)
    (hresp : query table_name key_condition_expression
      expression_attribute_names expression_attribute_values =
      Except.ok response)
    (hdes : deserialize_items response.Items = Except.ok pis) :
    query_items query table_name key_condition_expression
        expression_attribute_names expression_attribute_values =
      Except.ok ⟨response.Items, response.ResponseMetadata, pis⟩ ∧
      pis.length = response.Items.length ∧
      ∀ i, i < response.Items.length →
        deserialize_item (response.Items.getD i []) =
          Except.ok (pis.getD i []) := by
  obtain ⟨hlen, hpt⟩ := deserialize_items_pointwise hdes
  exact ⟨by simp [query_items, hresp, hdes], hlen, hpt⟩

/-- Witness for C7 (amended): a stub transport returning one wire item. -/
theorem query_items_envelope_witness :
    query_items
        (fun _ _ _ _ =>
          Except.ok ⟨[[("_id", WireValue.mk [WireField.S "u1"])]], ⟨200⟩⟩)
        "Users" "#id = :_id" [] [] =
      Except.ok ⟨[[("_id", WireValue.mk [WireField.S "u1"])]], ⟨200⟩,
        [[("_id", PlainValue.str "u1")]]⟩ ∧
      [[("_id", PlainValue.str "u1")]].length =
        [[("_id", WireValue.mk [WireField.S "u1"])]].length ∧
      ∀ i, i < [[("_id", WireValue.mk [WireField.S "u1"])]].length →
        deserialize_item
            ([[("_id", WireValue.mk [WireField.S "u1"])]].getD i []) =
          Except.ok ([[("_id", PlainValue.str "u1")]].getD i []) :=
  query_items_envelope
    (fun _ _ _ _ =>
      Except.ok ⟨[[("_id", WireValue.mk [WireField.S "u1"])]], ⟨200⟩⟩)
    "Users" "#id = :_id" [] []
    ⟨[[("_id", WireValue.mk [WireField.S "u1"])]], ⟨200⟩⟩
    [[("_id", PlainValue.str "u1")]] rfl rfl

/-- A stub transport whose collection reports 42 items with HTTP
status 200. -/
def describeStubA : String → Except ClientError DescribeTableResponse :=
  fun _ => Except.ok ⟨⟨42⟩, ⟨200⟩⟩

/-- A stub transport whose collection also reports 42 items, with HTTP
status 500 in the response metadata. -/
def describeStubB : String → Except ClientError DescribeTableResponse :=
  fun _ => Except.ok ⟨⟨42⟩, ⟨500⟩⟩

/-- C6 counterexample: `get_item_count` does not return a scalar count
equal to the collection's last-reported item count — two transports
whose collections report the same last-reported item count yield
different results (the function returns the full description envelope,
so the result also varies with the response metadata). -/
theorem get_item_count_not_scalar :
    ∃ rA rB : DescribeTableResponse,
      get_item_count describeStubA "Users" = Except.ok rA ∧
      get_item_count describeStubB "Users" = Except.ok rB ∧
      rA.Table.ItemCount = rB.Table.ItemCount ∧
      rA ≠ rB :=
  ⟨⟨⟨42⟩, ⟨200⟩⟩, ⟨⟨42⟩, ⟨500⟩⟩, rfl, rfl, rfl, by decide⟩

end DynamoUtil

namespace AddUsers

open DynamoUtil

/-- The body of the `itemCount` branch's envelope: the scalar count, or
the failure message when the response status is not 200. -/
inductive ItemCountBody : Type where
  | count : Int → ItemCountBody
  | message : String → ItemCountBody
deriving DecidableEq

/-- The envelope returned by the `itemCount` branch. -/
structure ItemCountResult : Type where
  statusCode : Nat
  isBase64Encoded : Bool
  body : ItemCountBody
deriving DecidableEq

/-- The `itemCount` branch of `lambda_handler` in
`add-users/lambda_function.py`: calls `get_item_count`, reads the HTTP
status from the returned envelope's metadata, and on success extracts
the scalar `response["Table"]["ItemCount"]` into the body. -/
def item_count_branch
    (describe_table : String → Except ClientError DescribeTableResponse)
    (table_name : String) : Except PyError ItemCountResult :=
  match get_item_count describe_table table_name with
  | .error e => .error (.client e)
  | .ok response =>
      let status_code := response.ResponseMetadata.HTTPStatusCode
      if status_code ≠ 200 then
        .ok ⟨400, false,
          ItemCountBody.message
            "Failed to get item count, see CloudWatch logs for details."⟩
      else
        .ok ⟨status_code, false, ItemCountBody.count response.Table.ItemCount⟩

/-- C6 (amended): `get_item_count` returns the transport's full
collection-description response, not a scalar; the collection's
last-reported item count is carried inside it at `Table.ItemCount`, and
the handler's `itemCount` branch extracts exactly that scalar on a 200
response. -/
theorem get_item_count_envelope
    (describe_table : String → Except ClientError DescribeTableResponse)
    (table_name : String) (response : DescribeTableResponse)
    (hresp : describe_table table_name = Except.ok response) :
    get_item_count describe_table table_name = Except.ok response ∧
      (response.ResponseMetadata.HTTPStatusCode = 200 →
        item_count_branch describe_table table_name =
          Except.ok ⟨200, false,
            ItemCountBody.count response.Table.ItemCount⟩) := by
  constructor
  · simpa [get_item_count] using hresp
  · intro h200
    simp [item_count_branch, get_item_count, hresp, h200]

/-- Witness for C6 (amended): the fixed-metadata stub transport. -/
theorem get_item_count_envelope_witness :
    get_item_count describeStubA "Users" =
        Except.ok (⟨⟨42⟩, ⟨200⟩⟩ : DescribeTableResponse) ∧
      ((⟨⟨42⟩, ⟨200⟩⟩ :
            DescribeTableResponse).ResponseMetadata.HTTPStatusCode = 200 →
        item_count_branch describeStubA "Users" =
          Except.ok ⟨200, false, ItemCountBody.count 42⟩) :=
  get_item_count_envelope describeStubA "Users" ⟨⟨42⟩, ⟨200⟩⟩ rfl

end AddUsers

namespace DynamoUtil

/-- The request `update_item` submits to the transport.  The source
passes no `ConditionExpression` keyword to the client call, embedded
here as the field being `none`. -/
structure UpdateItemRequest : Type where
  TableName : String
  Key : WireItem
  UpdateExpression : String
  ExpressionAttributeNames : List (String × String)
  ExpressionAttributeValues : List (String × WireValue)
  ReturnValues : String
  ConditionExpression : Option String

/-- The request construction inside `update_item`: key, update
expression, placeholder maps, `ReturnValues="ALL_NEW"`, and no condition
expression. -/
def update_item_request (table_name : String) (key : WireItem)
    (update_expression : String)
    (expression_attribute_names : List (String × String))
    (expression_attribute_values : List (String × WireValue)) :
    UpdateItemRequest :=
  { TableName := table_name, Key := key,
    UpdateExpression := update_expression,
    ExpressionAttributeNames := expression_attribute_names,
    ExpressionAttributeValues := expression_attribute_values,
    ReturnValues := "ALL_NEW", ConditionExpression := none }

/-- A transport response to `update_item`: the optional `Attributes`
member (the returned item image) plus metadata. -/
structure UpdateItemResponse : Type where
  Attributes : Option WireItem
  ResponseMetadata : ResponseMetadata

/-- The value `update_item` returns: the response updated with an
`updatedItem` member holding the deserialized new image. -/
structure UpdateItemResult : Type where
  Attributes : Option WireItem
  ResponseMetadata : ResponseMetadata
  updatedItem : PlainItem

/-- `update_item` from `dynamodb_util.py`: submits the unconditional
update request with `ReturnValues="ALL_NEW"`, then reads
`response["Attributes"]` (a `KeyError` when the member is absent),
deserializes it into the `updatedItem` member and returns the response. -/
def update_item
    (transport : UpdateItemRequest → Except ClientError UpdateItemResponse)
    (table_name : String) (key : WireItem) (update_expression : String)
    (expression_attribute_names : List (String × String))
    (expression_attribute_values : List (String × WireValue)) :
    Except PyError UpdateItemResult :=
  match transport (update_item_request table_name key update_expression
      expression_attribute_names expression_attribute_values) with
  | .error e => .error (.client e)
  | .ok response =>
      match response.Attributes with
      | none => .error (.keyError "Attributes")
      | some attrs =>
          match deserialize_item attrs with
          | .error ce => .error (.codec ce)
          | .ok item =>
              .ok ⟨response.Attributes, response.ResponseMetadata, item⟩

/-- The request `delete_item` submits to the transport; as in the
source, no `ConditionExpression` keyword is passed. -/
structure DeleteItemRequest : Type where
  TableName : String
  Key : WireItem
  ReturnValues : String
  ConditionExpression : Option String

/-- The request construction inside `delete_item`: key,
`ReturnValues="ALL_OLD"`, and no condition expression. -/
def delete_item_request (table_name : String) (key : WireItem) :
    DeleteItemRequest :=
  { TableName := table_name, Key := key, ReturnValues := "ALL_OLD",
    ConditionExpression := none }

/-- A transport response to `delete_item`: the optional `Attributes`
member (the old image, absent when no item was deleted) plus metadata. -/
structure DeleteItemResponse : Type where
  Attributes : Option WireItem
  ResponseMetadata : ResponseMetadata

/-- The value `delete_item` returns: the response updated with a
`deletedItem` member holding the deserialized old image. -/
structure DeleteItemResult : Type where
  Attributes : Option WireItem
  ResponseMetadata : ResponseMetadata
  deletedItem : PlainItem

/-- `delete_item` from `dynamodb_util.py`: submits the unconditional
delete request with `ReturnValues="ALL_OLD"`, then reads
`response["Attributes"]` (a `KeyError` when the member is absent),
deserializes it into the `deletedItem` member and returns the response. -/
def delete_item
    (transport : DeleteItemRequest → Except ClientError DeleteItemResponse)
    (table_name : String) (key : WireItem) :
    Except PyError DeleteItemResult :=
  match transport (delete_item_request table_name key) with
  | .error e => .error (.client e)
  | .ok response =>
      match response.Attributes with
      | none => .error (.keyError "Attributes")
      | some attrs =>
          match deserialize_item attrs with
          | .error ce => .error (.codec ce)
          | .ok item =>
              .ok ⟨response.Attributes, response.ResponseMetadata, item⟩

/-- Modelled from the spec: the transport collaborator over a collection
in which the requested key does not exist.  Per the spec's glossary a
condition failure is reported only when the request carries a condition;
an unconditional update of a missing key is the store's documented
upsert, which creates the item and returns the new image under
`ReturnValues="ALL_NEW"` (here the key attributes that were written). -/
def emptyTableUpdateTransport :
    UpdateItemRequest → Except ClientError UpdateItemResponse := fun req =>
  match req.ConditionExpression with
  | some _ => Except.error ⟨"The conditional request failed"⟩
  | none => Except.ok ⟨some req.Key, ⟨200⟩⟩

/-- Modelled from the spec: the transport collaborator over a collection
in which the requested key does not exist.  An unconditional delete of a
missing key succeeds as a no-op, and under `ReturnValues="ALL_OLD"` the
response carries no `Attributes` member since nothing was deleted. -/
def emptyTableDeleteTransport :
    DeleteItemRequest → Except ClientError DeleteItemResponse := fun req =>
  match req.ConditionExpression with
  | some _ => Except.error ⟨"The conditional request failed"⟩
  | none => Except.ok ⟨none, ⟨200⟩⟩

/-- C8 counterexample: invoked on a key that does not exist in the
collection, `update_item` does not raise a precondition violation — it
reports success, returning the upserted item's new image. -/
theorem update_item_missing_key_succeeds :
    update_item emptyTableUpdateTransport "Users"
        [("_id", WireValue.mk [WireField.S "u1"])] "SET #Name = :Name"
        [("#Name", "Name")] [(":Name", WireValue.mk [WireField.S "Bob"])] =
      Except.ok ⟨some [("_id", WireValue.mk [WireField.S "u1"])], ⟨200⟩,
        [("_id", PlainValue.str "u1")]⟩ := rfl

/-- C8 (amended): neither `update_item` nor `delete_item` supplies a
condition expression, so no transport precondition violation occurs on a
missing key: the unconditional update upserts and `update_item` reports
success with the new image, while `delete_item` raises — not a
precondition violation but a `KeyError` from reading the absent
old-image `Attributes` member (callers must pre-check existence via
`get_item`, as the lambda handler does). -/
theorem update_delete_missing_key
    (table_name : String) (key : WireItem) (update_expression : String)
    (expression_attribute_names : List (String × String))
    (expression_attribute_values : List (String × WireValue))
    (pk : PlainItem) (hkey : deserialize_item key = Except.ok pk) :
    (update_item_request table_name key update_expression
        expression_attribute_names
        expression_attribute_values).ConditionExpression = none ∧
      (delete_item_request table_name key).ConditionExpression = none ∧
      update_item emptyTableUpdateTransport table_name key
          update_expression expression_attribute_names
          expression_attribute_values =
        Except.ok ⟨some key, ⟨200⟩, pk⟩ ∧
      delete_item emptyTableDeleteTransport table_name key =
        Except.error (PyError.keyError "Attributes") := by
  refine ⟨rfl, rfl, ?_, rfl⟩
  simp [update_item, emptyTableUpdateTransport, update_item_request, hkey]

/-- Witness for C8 (amended): a concrete single-attribute key. -/
theorem update_delete_missing_key_witness :
    (update_item_request "Users" [("_id", WireValue.mk [WireField.S "u1"])]
        "SET #Name = :Name" [("#Name", "Name")]
        [(":Name", WireValue.mk [WireField.S "Bob"])]).ConditionExpression =
        none ∧
      (delete_item_request "Users"
        [("_id", WireValue.mk [WireField.S "u1"])]).ConditionExpression =
        none ∧
      update_item emptyTableUpdateTransport "Users"
          [("_id", WireValue.mk [WireField.S "u1"])] "SET #Name = :Name"
          [("#Name", "Name")]
          [(":Name", WireValue.mk [WireField.S "Bob"])] =
        Except.ok ⟨some [("_id", WireValue.mk [WireField.S "u1"])], ⟨200⟩,
          [("_id", PlainValue.str "u1")]⟩ ∧
      delete_item emptyTableDeleteTransport "Users"
          [("_id", WireValue.mk [WireField.S "u1"])] =
        Except.error (PyError.keyError "Attributes") :=
  update_delete_missing_key "Users"
    [("_id", WireValue.mk [WireField.S "u1"])] "SET #Name = :Name"
    [("#Name", "Name")] [(":Name", WireValue.mk [WireField.S "Bob"])]
    [("_id", PlainValue.str "u1")] rfl

end DynamoUtil
